import Mathlib

/-!
Shallow embedding of `src/repositories/course_repository.py`:
the `CourseRepository` class performing CRUD on three SQLite tables
(`Courses`, `Periods`, `Requirements`).  The database state is modelled
as three lists of rows, SQL statements as list operations, and each
repository method as an explicit state transformer.
-/

namespace CourseRepo

/-- Modelled from the spec: the `Course` entity (`entities/course.py` is not
in the repository's staged files).  Per the spec's data model: an identifier
(integer, `-1` sentinel meaning "not yet persisted"), a name, a credit count,
a set of periods, and a set of prerequisite course identifiers. -/
structure Course where
  name : String
  credits : Int
  timing : Finset Int
  requirements : Finset Int
  id : Int
deriving DecidableEq

/-- A row of the `Courses` table: `(id, name, credits)`. -/
structure CourseRow where
  id : Int
  name : String
  credits : Int
deriving DecidableEq, Repr

/-- A row of the `Periods` table: `(course_id, period)`. -/
structure PeriodRow where
  course_id : Int
  period : Int
deriving DecidableEq, Repr

/-- A row of the `Requirements` table: `(course_id, requirement_id)`. -/
structure RequirementRow where
  course_id : Int
  requirement_id : Int
deriving DecidableEq, Repr

/-- The database state: the contents of the three tables, each as the list
of its rows in insertion order. -/
structure DBState where
  courses : List CourseRow
  periods : List PeriodRow
  requirements : List RequirementRow
deriving DecidableEq, Repr

/-- Modelled from the spec: the row id SQLite assigns to
`INSERT INTO Courses (name, credits) VALUES (?, ?)` (the schema-creation
code is not in the repository's staged files).  The new row id is one more
than the largest id currently in the table, and at least `1`; the spec's
`-1` sentinel is never assigned by the database. -/
def freshId (rows : List CourseRow) : Int :=
  (rows.foldl (fun m r => max m r.id) 0) + 1

/-- `find_timing`: `SELECT period FROM Periods WHERE course_id=?`, collected
into a Python `set` (the comprehension `{row["period"] for row in timing}`). -/
def find_timing (st : DBState) (id : Int) : Finset Int :=
  ((st.periods.filter fun r => r.course_id = id).map (·.period)).toFinset

/-- `find_requirements`: `SELECT requirement_id FROM Requirements WHERE
course_id=?`, collected into a Python `set`. -/
def find_requirements (st : DBState) (id : Int) : Finset Int :=
  ((st.requirements.filter fun r => r.course_id = id).map
    (·.requirement_id)).toFinset

/-- `find_by_id`: `SELECT * FROM Courses WHERE id=?` with `fetchone` (the
first matching row), returning `None` when there is no row, otherwise the
`Course` built from the row's name and credits together with
`find_timing` and `find_requirements` at that id. -/
def find_by_id (st : DBState) (id : Int) : Option Course :=
  match st.courses.find? fun r => r.id = id with
  | none => none
  | some row =>
      some ⟨row.name, row.credits, find_timing st id, find_requirements st id, id⟩

/-- `delete`: `DELETE FROM Courses WHERE id=?`,
`DELETE FROM Periods WHERE course_id=?`, and
`DELETE FROM Requirements WHERE course_id=:id or requirement_id=:id`. -/
def delete (st : DBState) (id : Int) : DBState where
  courses := st.courses.filter fun r => ¬ r.id = id
  periods := st.periods.filter fun r => ¬ r.course_id = id
  requirements :=
    st.requirements.filter fun r => ¬ (r.course_id = id ∨ r.requirement_id = id)

/-- `delete_all`: empties all three tables. -/
def delete_all (_st : DBState) : DBState where
  courses := []
  periods := []
  requirements := []

/-- The update guard inside `create`:
`if self.find_by_id(course.id) is not None: self.delete(course.id)`. -/
def deleteIfExists (st : DBState) (id : Int) : DBState :=
  if (find_by_id st id).isSome then delete st id else st

/-- `__write_timing`: one `INSERT INTO Periods (course_id, period)` per
element of `course.timing` (a Python set; the model inserts them in
ascending order, one row per element). -/
def write_timing (st : DBState) (course : Course) : DBState :=
  { st with
    periods :=
      st.periods ++ (course.timing.sort (· ≤ ·)).map fun t => ⟨course.id, t⟩ }

/-- `__write_requirements`: one `INSERT INTO Requirements
(course_id, requirement_id)` per element of `course.requirements`. -/
def write_requirements (st : DBState) (course : Course) : DBState :=
  { st with
    requirements :=
      st.requirements ++
        (course.requirements.sort (· ≤ ·)).map fun q => ⟨course.id, q⟩ }

/-- `create`: when `course.id == -1`, `INSERT INTO Courses (name, credits)`
and set `course.id = cursor.lastrowid`; otherwise delete the existing course
with that id (when one exists) and `INSERT INTO Courses (id, name, credits)`
with the explicit id.  Then `__write_timing` and `__write_requirements`.
Returns the new state and the returned course. -/
def create (st : DBState) (course : Course) : DBState × Course :=
  if course.id = -1 then
    let i := freshId st.courses
    let c2 : Course := { course with id := i }
    let st1 : DBState :=
      { st with courses := st.courses ++ [⟨i, course.name, course.credits⟩] }
    (write_requirements (write_timing st1 c2) c2, c2)
  else
    let st0 := deleteIfExists st course.id
    let st1 : DBState :=
      { st0 with
        courses := st0.courses ++ [⟨course.id, course.name, course.credits⟩] }
    (write_requirements (write_timing st1 course) course, course)

/-- `find_all`: `SELECT id FROM Courses ORDER BY id`, then `find_by_id` on
each returned id (the Python guard `if row is not None` never filters a
fetched row and is a no-op). -/
def find_all (st : DBState) : List (Option Course) :=
  (List.insertionSort (· ≤ ·) (st.courses.map (·.id))).map (find_by_id st)

/-- Referential well-formedness of a database state: every `Periods` and
`Requirements` row's `course_id` is the id of some `Courses` row.  Every
state the repository's own operations reach from the empty database has
this shape (dangling `requirement_id`s are allowed, matching the absence
of foreign-key enforcement). -/
def WellFormed (st : DBState) : Prop :=
  (∀ r ∈ st.periods, ∃ cr ∈ st.courses, cr.id = r.course_id) ∧
  (∀ r ∈ st.requirements, ∃ cr ∈ st.courses, cr.id = r.course_id)

instance (st : DBState) : Decidable (WellFormed st) := by
  unfold WellFormed
  exact instDecidableAnd

/-- The id `create` gives the stored course: the database-assigned fresh id
when the sentinel `-1` was passed, the course's own id otherwise. -/
def createdId (st : DBState) (course : Course) : Int :=
  if course.id = -1 then freshId st.courses else course.id

/-- The state `create` inserts into, after the deletion step of the update
path (the insert path leaves the state untouched before inserting). -/
def createBase (st : DBState) (course : Course) : DBState :=
  if course.id = -1 then st else deleteIfExists st course.id

lemma create_eq (st : DBState) (course : Course) :
    create st course =
      (⟨(createBase st course).courses ++
          [⟨createdId st course, course.name, course.credits⟩],
        (createBase st course).periods ++
          (course.timing.sort (· ≤ ·)).map fun t => ⟨createdId st course, t⟩,
        (createBase st course).requirements ++
          (course.requirements.sort (· ≤ ·)).map
            fun q => ⟨createdId st course, q⟩⟩,
       { course with id := createdId st course }) := by
  unfold create createdId createBase write_timing write_requirements
  split <;> rfl

lemma le_foldl_max (l : List CourseRow) (a : Int) :
    a ≤ l.foldl (fun m r => max m r.id) a := by
  induction l generalizing a with
  | nil => exact le_refl a
  | cons x xs ih => exact le_trans (le_max_left a x.id) (ih (max a x.id))

lemma mem_le_foldl_max (l : List CourseRow) (a : Int) (r : CourseRow) :
    r ∈ l → r.id ≤ l.foldl (fun m r => max m r.id) a := by
  induction l generalizing a with
  | nil => intro h; cases h
  | cons x xs ih =>
    intro h
    rcases List.mem_cons.mp h with h1 | h2
    · subst h1
      exact le_trans (le_max_right a r.id) (le_foldl_max xs (max a r.id))
    · exact ih (max a x.id) h2

lemma freshId_pos (rows : List CourseRow) : 1 ≤ freshId rows := by
  have h := le_foldl_max rows 0
  unfold freshId
  omega

lemma freshId_gt (rows : List CourseRow) (r : CourseRow) (h : r ∈ rows) :
    r.id < freshId rows := by
  have h2 := mem_le_foldl_max rows 0 r h
  unfold freshId
  omega

lemma filter_idem {α : Type} (p : α → Bool) (l : List α) :
    (l.filter p).filter p = l.filter p :=
  List.filter_eq_self.mpr fun _x hx => (List.mem_filter.mp hx).2

lemma find_by_id_isSome (st : DBState) (id : Int) :
    (find_by_id st id).isSome = true ↔ ∃ r ∈ st.courses, r.id = id := by
  unfold find_by_id
  cases h : st.courses.find? (fun r => r.id = id) with
  | none =>
    simp only [Option.isSome_none, Bool.false_eq_true, false_iff]
    rintro ⟨r, hr, hid⟩
    have h2 := List.find?_eq_none.mp h r hr
    simp only [decide_eq_true_eq] at h2
    exact h2 hid
  | some row =>
    simp only [Option.isSome_some, true_iff]
    refine ⟨row, List.mem_of_find?_eq_some h, ?_⟩
    have h2 := List.find?_some h
    simpa using h2

lemma map_mk_period (i : Int) (l : List Int) :
    ((l.map fun t => (⟨i, t⟩ : PeriodRow)).map (·.period)) = l := by
  simp [List.map_map, Function.comp_def]

lemma map_mk_requirement (i : Int) (l : List Int) :
    ((l.map fun q => (⟨i, q⟩ : RequirementRow)).map (·.requirement_id)) = l := by
  simp [List.map_map, Function.comp_def]

/-- No row of the pre-insert state of `create` carries the id being created:
the insert path assigns a strictly fresh id, and the update path has just
deleted every row carrying the id (or none existed).  Needs referential
well-formedness for the periods and requirements of the insert path. -/
lemma createBase_fresh (st : DBState) (course : Course) (h : WellFormed st) :
    (∀ r ∈ (createBase st course).courses, r.id ≠ createdId st course) ∧
    (∀ r ∈ (createBase st course).periods,
        r.course_id ≠ createdId st course) ∧
    (∀ r ∈ (createBase st course).requirements,
        r.course_id ≠ createdId st course) := by
  obtain ⟨hw1, hw2⟩ := h
  by_cases hid : course.id = -1
  · simp only [createBase, createdId, hid, if_pos]
    refine ⟨fun r hr => ?_, fun r hr => ?_, fun r hr => ?_⟩
    · exact ne_of_lt (freshId_gt st.courses r hr)
    · obtain ⟨cr, hcr, hcrid⟩ := hw1 r hr
      have h3 := freshId_gt st.courses cr hcr
      omega
    · obtain ⟨cr, hcr, hcrid⟩ := hw2 r hr
      have h3 := freshId_gt st.courses cr hcr
      omega
  · have hcid : createdId st course = course.id := by
      simp only [createdId, if_neg hid]
    have hbase : createBase st course = deleteIfExists st course.id := by
      simp only [createBase, if_neg hid]
    rw [hcid, hbase]
    unfold deleteIfExists
    by_cases hex : (find_by_id st course.id).isSome = true
    · simp only [hex, if_pos, delete]
      refine ⟨fun r hr => ?_, fun r hr => ?_, fun r hr => ?_⟩
      · have h2 := (List.mem_filter.mp hr).2
        simpa using h2
      · have h2 := (List.mem_filter.mp hr).2
        simpa using h2
      · have h2 := (List.mem_filter.mp hr).2
        simp only [decide_eq_true_eq] at h2
        tauto
    · rw [if_neg hex]
      have hnone : ∀ r ∈ st.courses, ¬ r.id = course.id := by
        intro r hr hcontra
        exact hex ((find_by_id_isSome st course.id).mpr ⟨r, hr, hcontra⟩)
      refine ⟨fun r hr => hnone r hr, fun r hr hc => ?_, fun r hr hc => ?_⟩
      · obtain ⟨cr, hcr, hcrid⟩ := hw1 r hr
        exact hnone cr hcr (by omega)
      · obtain ⟨cr, hcr, hcrid⟩ := hw2 r hr
        exact hnone cr hcr (by omega)

/-- C1: round trip.  On a referentially well-formed state, `create` followed
by `find_by_id` at the returned id yields a course with the same name,
credits, period set and requirement set. -/
theorem C1_round_trip (st : DBState) (course : Course) (h : WellFormed st) :
    ∃ c2 : Course,
      find_by_id (create st course).1 (create st course).2.id = some c2 ∧
      c2.name = course.name ∧ c2.credits = course.credits ∧
      c2.timing = course.timing ∧ c2.requirements = course.requirements := by
  obtain ⟨hc, hp, hr⟩ := createBase_fresh st course h
  rw [create_eq]
  refine ⟨⟨course.name, course.credits, course.timing, course.requirements,
    createdId st course⟩, ?_, rfl, rfl, rfl, rfl⟩
  have hfind : ((createBase st course).courses ++
      [(⟨createdId st course, course.name, course.credits⟩ : CourseRow)]).find?
        (fun r => r.id = createdId st course) =
      some ⟨createdId st course, course.name, course.credits⟩ := by
    rw [List.find?_append]
    have h1 : (createBase st course).courses.find?
        (fun r => r.id = createdId st course) = none :=
      List.find?_eq_none.mpr fun r hrm => by simpa using hc r hrm
    rw [h1]
    simp [List.find?]
  have htv : ((createBase st course).periods ++
        (course.timing.sort (· ≤ ·)).map
          fun t => (⟨createdId st course, t⟩ : PeriodRow)).filter
      (fun r => r.course_id = createdId st course) =
      (course.timing.sort (· ≤ ·)).map
        fun t => (⟨createdId st course, t⟩ : PeriodRow) := by
    rw [List.filter_append]
    have h1 : (createBase st course).periods.filter
        (fun r => r.course_id = createdId st course) = [] :=
      List.filter_eq_nil_iff.mpr fun r hrm => by simpa using hp r hrm
    have h2 : ((course.timing.sort (· ≤ ·)).map
        fun t => (⟨createdId st course, t⟩ : PeriodRow)).filter
          (fun r => r.course_id = createdId st course) =
        (course.timing.sort (· ≤ ·)).map
          fun t => (⟨createdId st course, t⟩ : PeriodRow) :=
      List.filter_eq_self.mpr fun r hrm => by
        obtain ⟨t, ht, rfl⟩ := List.mem_map.mp hrm
        simp
    rw [h1, h2, List.nil_append]
  have hqv : ((createBase st course).requirements ++
        (course.requirements.sort (· ≤ ·)).map
          fun q => (⟨createdId st course, q⟩ : RequirementRow)).filter
      (fun r => r.course_id = createdId st course) =
      (course.requirements.sort (· ≤ ·)).map
        fun q => (⟨createdId st course, q⟩ : RequirementRow) := by
    rw [List.filter_append]
    have h1 : (createBase st course).requirements.filter
        (fun r => r.course_id = createdId st course) = [] :=
      List.filter_eq_nil_iff.mpr fun r hrm => by simpa using hr r hrm
    have h2 : ((course.requirements.sort (· ≤ ·)).map
        fun q => (⟨createdId st course, q⟩ : RequirementRow)).filter
          (fun r => r.course_id = createdId st course) =
        (course.requirements.sort (· ≤ ·)).map
          fun q => (⟨createdId st course, q⟩ : RequirementRow) :=
      List.filter_eq_self.mpr fun r hrm => by
        obtain ⟨q, hq, rfl⟩ := List.mem_map.mp hrm
        simp
    rw [h1, h2, List.nil_append]
  unfold find_by_id find_timing find_requirements
  rw [hfind]
  simp only [htv, hqv, map_mk_period, map_mk_requirement,
    Finset.sort_toFinset]

/-- Witness for C1 at a one-course well-formed database and a fresh course
offering period 2 and requiring course 1. -/
theorem C1_witness :
    WellFormed ⟨[⟨1, "A", 5⟩], [⟨1, 1⟩], [⟨1, 1⟩]⟩ ∧
    ∃ c2 : Course,
      find_by_id
          (create ⟨[⟨1, "A", 5⟩], [⟨1, 1⟩], [⟨1, 1⟩]⟩
            ⟨"B", 3, {2}, {1}, -1⟩).1
          (create ⟨[⟨1, "A", 5⟩], [⟨1, 1⟩], [⟨1, 1⟩]⟩
            ⟨"B", 3, {2}, {1}, -1⟩).2.id = some c2 ∧
      c2.name = "B" ∧ c2.credits = 3 ∧
      c2.timing = {2} ∧ c2.requirements = {1} :=
  ⟨by decide,
   C1_round_trip ⟨[⟨1, "A", 5⟩], [⟨1, 1⟩], [⟨1, 1⟩]⟩
     ⟨"B", 3, {2}, {1}, -1⟩ (by decide)⟩

/-- C2: after `delete id`, the database contains no `Courses` row with that
id, no `Periods` row with `course_id` equal to that id, and no
`Requirements` row with `course_id` equal to that id. -/
theorem C2_delete_removes_rows (st : DBState) (id : Int) :
    (delete st id).courses.filter (fun r => r.id = id) = [] ∧
    (delete st id).periods.filter (fun r => r.course_id = id) = [] ∧
    (delete st id).requirements.filter (fun r => r.course_id = id) = [] := by
  refine ⟨?_, ?_, ?_⟩ <;>
  · rw [List.filter_eq_nil_iff]
    intro r hr
    simp only [delete] at hr
    have h2 := (List.mem_filter.mp hr).2
    simp only [decide_eq_true_eq] at h2 ⊢
    tauto

/-- C5: for a course carrying the `-1` sentinel, `create` inserts a new
`Courses` row and returns the course with the database-assigned row id,
which is never `-1`. -/
theorem C5_insert_assigns_fresh_id (st : DBState) (course : Course)
    (h : course.id = -1) :
    (create st course).2.id = freshId st.courses ∧
    (create st course).2.id ≠ -1 ∧
    (create st course).1.courses =
      st.courses ++ [⟨freshId st.courses, course.name, course.credits⟩] := by
  rw [create_eq]
  have hp := freshId_pos st.courses
  refine ⟨by simp [createdId, h], ?_, by simp [createdId, createBase, h]⟩
  simp only [createdId, h, if_pos]
  omega

/-- Witness for C5 at the empty database and a sentinel course. -/
theorem C5_witness :
    (create ⟨[], [], []⟩ ⟨"Ohpe", 5, ∅, ∅, -1⟩).2.id = freshId [] ∧
    (create ⟨[], [], []⟩ ⟨"Ohpe", 5, ∅, ∅, -1⟩).2.id ≠ -1 ∧
    (create ⟨[], [], []⟩ ⟨"Ohpe", 5, ∅, ∅, -1⟩).1.courses =
      [] ++ [⟨freshId [], "Ohpe", 5⟩] :=
  C5_insert_assigns_fresh_id ⟨[], [], []⟩ ⟨"Ohpe", 5, ∅, ∅, -1⟩ rfl

/-- C9: `delete` on an id with no matching rows leaves the state unchanged
(and raises no error: it is total), and `delete` is idempotent. -/
theorem C9_delete_idempotent (st : DBState) (id : Int)
    (h : st.courses.filter (fun r => r.id = id) = [] ∧
         st.periods.filter (fun r => r.course_id = id) = [] ∧
         st.requirements.filter
           (fun r => r.course_id = id ∨ r.requirement_id = id) = []) :
    delete st id = st ∧
    ∀ st2 : DBState, delete (delete st2 id) id = delete st2 id := by
  constructor
  · obtain ⟨h1, h2, h3⟩ := h
    simp only [List.filter_eq_nil_iff, decide_eq_true_eq] at h1 h2 h3
    cases st with
    | mk cs ps rs =>
      have e1 : cs.filter (fun r => ¬ r.id = id) = cs :=
        List.filter_eq_self.mpr fun a ha => by simpa using h1 a ha
      have e2 : ps.filter (fun r => ¬ r.course_id = id) = ps :=
        List.filter_eq_self.mpr fun a ha => by simpa using h2 a ha
      have e3 : rs.filter
          (fun r => ¬ (r.course_id = id ∨ r.requirement_id = id)) = rs :=
        List.filter_eq_self.mpr fun a ha => by simpa using h3 a ha
      simp only [delete, e1, e2, e3]
  · intro st2
    cases st2 with
    | mk cs ps rs =>
      simp only [delete]
      rw [filter_idem, filter_idem, filter_idem]

/-- Witness for C9 at the empty database. -/
theorem C9_witness :
    delete ⟨[], [], []⟩ 1 = ⟨[], [], []⟩ ∧
    ∀ st2 : DBState, delete (delete st2 1) 1 = delete st2 1 :=
  C9_delete_idempotent ⟨[], [], []⟩ 1 ⟨rfl, rfl, rfl⟩

/-- C10: for a course whose id is not `-1` and matches no existing `Courses`
row, `create` inserts a `Courses` row with exactly that id and returns the
course unchanged. -/
theorem C10_explicit_id_insert (st : DBState) (course : Course)
    (h1 : course.id ≠ -1) (h2 : find_by_id st course.id = none) :
    (create st course).1.courses =
      st.courses ++ [⟨course.id, course.name, course.credits⟩] ∧
    (create st course).2 = course := by
  rw [create_eq]
  simp [createdId, createBase, deleteIfExists, h1, h2]

/-- Witness for C10 at the empty database and a course with explicit id 7. -/
theorem C10_witness :
    (create ⟨[], [], []⟩ ⟨"TiRa", 8, ∅, ∅, 7⟩).1.courses =
      [] ++ [⟨7, "TiRa", 8⟩] ∧
    (create ⟨[], [], []⟩ ⟨"TiRa", 8, ∅, ∅, 7⟩).2 = ⟨"TiRa", 8, ∅, ∅, 7⟩ :=
  C10_explicit_id_insert ⟨[], [], []⟩ ⟨"TiRa", 8, ∅, ∅, 7⟩ (by decide) rfl

/-- C7: `create` on a course whose requirements set holds the id `99`,
matching no `Courses` row, succeeds (it is total) and stores the dangling
`Requirements` edge: no foreign-key check rejects it. -/
theorem C7_dangling_requirement :
    (create ⟨[], [], []⟩ ⟨"A", 5, ∅, {99}, -1⟩).1.requirements =
      [⟨1, 99⟩] ∧
    (create ⟨[], [], []⟩ ⟨"A", 5, ∅, {99}, -1⟩).1.courses.filter
      (fun r => r.id = 99) = [] := by
  constructor <;>
    simp [create, write_timing, write_requirements, freshId,
      Finset.sort_empty, Finset.sort_singleton, List.filter]

/-- C3 fails on the code: updating course 1 deletes the `Requirements` row
`(2, 1)` owned by course 2 (the `delete` inside `create` also matches
`requirement_id`), and never reinserts it. -/
theorem C3_counterexample :
    (create ⟨[⟨1, "A", 1⟩, ⟨2, "B", 1⟩], [], [⟨2, 1⟩]⟩
        ⟨"A2", 3, ∅, ∅, 1⟩).1.requirements.filter
      (fun r => r.course_id = 2) ≠
    (([⟨2, 1⟩] : List RequirementRow)).filter (fun r => r.course_id = 2) := by
  simp [create, deleteIfExists, find_by_id, delete, write_timing,
    write_requirements, List.find?, List.filter, Finset.sort_empty]

/-- C3 amended: an update (`create` on an id with an existing `Courses` row)
leaves the `Courses` and `Periods` rows of every other course unchanged, and
leaves the `Requirements` rows of other courses unchanged except those whose
`requirement_id` equals the updated course's id, which are deleted and not
reinserted. -/
theorem C3_update_frame (st : DBState) (course : Course)
    (h1 : course.id ≠ -1) (h2 : (find_by_id st course.id).isSome = true) :
    (create st course).1.courses.filter (fun r => ¬ r.id = course.id) =
      st.courses.filter (fun r => ¬ r.id = course.id) ∧
    (create st course).1.periods.filter
        (fun r => ¬ r.course_id = course.id) =
      st.periods.filter (fun r => ¬ r.course_id = course.id) ∧
    (create st course).1.requirements.filter
        (fun r => ¬ r.course_id = course.id) =
      st.requirements.filter
        (fun r => ¬ r.course_id = course.id ∧
          ¬ r.requirement_id = course.id) := by
  have hcid : createdId st course = course.id := by
    simp only [createdId, if_neg h1]
  have hbase : createBase st course = delete st course.id := by
    simp only [createBase, if_neg h1, deleteIfExists, if_pos h2]
  rw [create_eq, hcid, hbase]
  refine ⟨?_, ?_, ?_⟩
  · simp only [delete, List.filter_append, filter_idem]
    simp [List.filter]
  · simp only [delete, List.filter_append, filter_idem]
    have hnew : ((course.timing.sort (· ≤ ·)).map
        fun t => (⟨course.id, t⟩ : PeriodRow)).filter
          (fun r => ¬ r.course_id = course.id) = [] :=
      List.filter_eq_nil_iff.mpr fun r hrm => by
        obtain ⟨t, ht, rfl⟩ := List.mem_map.mp hrm
        simp
    rw [hnew, List.append_nil]
  · simp only [delete, List.filter_append]
    have hold : (st.requirements.filter
        (fun r => ¬ (r.course_id = course.id ∨
          r.requirement_id = course.id))).filter
          (fun r => ¬ r.course_id = course.id) =
        st.requirements.filter
          (fun r => ¬ (r.course_id = course.id ∨
            r.requirement_id = course.id)) :=
      List.filter_eq_self.mpr fun r hrm => by
        have h3 := (List.mem_filter.mp hrm).2
        simp only [decide_eq_true_eq] at h3 ⊢
        tauto
    have hnew : ((course.requirements.sort (· ≤ ·)).map
        fun q => (⟨course.id, q⟩ : RequirementRow)).filter
          (fun r => ¬ r.course_id = course.id) = [] :=
      List.filter_eq_nil_iff.mpr fun r hrm => by
        obtain ⟨q, hq, rfl⟩ := List.mem_map.mp hrm
        simp
    rw [hold, hnew, List.append_nil]
    exact List.filter_congr fun r _ => decide_eq_decide.mpr not_or

/-- Witness for the amended C3 at a two-course database, updating course 1. -/
theorem C3_witness :
    (¬ (⟨"A2", 3, ∅, ∅, 1⟩ : Course).id = -1) ∧
    (find_by_id ⟨[⟨1, "A", 1⟩, ⟨2, "B", 1⟩], [⟨2, 3⟩], [⟨2, 1⟩]⟩
        (1 : Int)).isSome = true ∧
    (create ⟨[⟨1, "A", 1⟩, ⟨2, "B", 1⟩], [⟨2, 3⟩], [⟨2, 1⟩]⟩
        ⟨"A2", 3, ∅, ∅, 1⟩).1.periods.filter
      (fun r => ¬ r.course_id = 1) =
      ([⟨2, 3⟩] : List PeriodRow).filter (fun r => ¬ r.course_id = 1) :=
  ⟨by decide, rfl,
    (C3_update_frame ⟨[⟨1, "A", 1⟩, ⟨2, "B", 1⟩], [⟨2, 3⟩], [⟨2, 1⟩]⟩
      ⟨"A2", 3, ∅, ∅, 1⟩ (by decide) rfl).2.1⟩

/-- C4: an update replaces the course wholesale: after the internal delete
no `Periods` or `Requirements` row with the course's id remains, and the
final state's rows with that `course_id` are exactly one row per element of
the course's current timing and requirements sets. -/
theorem C4_replace_wholesale (st : DBState) (course : Course)
    (h1 : course.id ≠ -1) (h2 : (find_by_id st course.id).isSome = true) :
    createBase st course = delete st course.id ∧
    (createBase st course).periods.filter
      (fun r => r.course_id = course.id) = [] ∧
    (createBase st course).requirements.filter
      (fun r => r.course_id = course.id) = [] ∧
    (create st course).1.periods.filter (fun r => r.course_id = course.id) =
      (course.timing.sort (· ≤ ·)).map (fun t => ⟨course.id, t⟩) ∧
    (create st course).1.requirements.filter
        (fun r => r.course_id = course.id) =
      (course.requirements.sort (· ≤ ·)).map (fun q => ⟨course.id, q⟩) := by
  have hcid : createdId st course = course.id := by
    simp only [createdId, if_neg h1]
  have hbase : createBase st course = delete st course.id := by
    simp only [createBase, if_neg h1, deleteIfExists, if_pos h2]
  have hdp : (delete st course.id).periods.filter
      (fun r => r.course_id = course.id) = [] :=
    List.filter_eq_nil_iff.mpr fun r hrm => by
      have h3 := (List.mem_filter.mp hrm).2
      simpa using h3
  have hdr : (delete st course.id).requirements.filter
      (fun r => r.course_id = course.id) = [] :=
    List.filter_eq_nil_iff.mpr fun r hrm => by
      have h3 := (List.mem_filter.mp hrm).2
      simp only [decide_eq_true_eq] at h3 ⊢
      tauto
  refine ⟨hbase, hbase ▸ hdp, hbase ▸ hdr, ?_, ?_⟩
  · rw [create_eq, hcid, hbase]
    show ((delete st course.id).periods ++ _).filter _ = _
    rw [List.filter_append, hdp, List.nil_append]
    exact List.filter_eq_self.mpr fun r hrm => by
      obtain ⟨t, ht, rfl⟩ := List.mem_map.mp hrm
      simp
  · rw [create_eq, hcid, hbase]
    show ((delete st course.id).requirements ++ _).filter _ = _
    rw [List.filter_append, hdr, List.nil_append]
    exact List.filter_eq_self.mpr fun r hrm => by
      obtain ⟨q, hq, rfl⟩ := List.mem_map.mp hrm
      simp

/-- Witness for C4 at a one-course database, updating course 1 with
period set `{4}` and empty requirements. -/
theorem C4_witness :
    (¬ (⟨"A2", 4, {4}, ∅, 1⟩ : Course).id = -1) ∧
    (find_by_id ⟨[⟨1, "A", 5⟩], [⟨1, 2⟩], [⟨1, 3⟩]⟩ (1 : Int)).isSome
      = true ∧
    (create ⟨[⟨1, "A", 5⟩], [⟨1, 2⟩], [⟨1, 3⟩]⟩
        ⟨"A2", 4, {4}, ∅, 1⟩).1.periods.filter (fun r => r.course_id = 1) =
      (({4} : Finset Int).sort (· ≤ ·)).map (fun t => ⟨1, t⟩) :=
  ⟨by decide, rfl,
    (C4_replace_wholesale ⟨[⟨1, "A", 5⟩], [⟨1, 2⟩], [⟨1, 3⟩]⟩
      ⟨"A2", 4, {4}, ∅, 1⟩ (by decide) rfl).2.2.2.1⟩

/-- C6: `create` appends to the pre-insert state exactly one `Courses` row
`(id, name, credits)`, one `Periods` row per period of the course's timing
set, and one `Requirements` row per id of its requirements set: the
appended row lists are duplicate-free and hold precisely the set elements
paired with the stored course's id. -/
theorem C6_create_inserted_rows (st : DBState) (course : Course) :
    (create st course).1.courses =
      (createBase st course).courses ++
        [⟨(create st course).2.id, course.name, course.credits⟩] ∧
    (create st course).1.periods =
      (createBase st course).periods ++
        (course.timing.sort (· ≤ ·)).map
          (fun t => ⟨(create st course).2.id, t⟩) ∧
    (create st course).1.requirements =
      (createBase st course).requirements ++
        (course.requirements.sort (· ≤ ·)).map
          (fun q => ⟨(create st course).2.id, q⟩) ∧
    ((course.timing.sort (· ≤ ·)).map
        (fun t => (⟨(create st course).2.id, t⟩ : PeriodRow))).Nodup ∧
    (∀ pr : PeriodRow,
      pr ∈ (course.timing.sort (· ≤ ·)).map
          (fun t => (⟨(create st course).2.id, t⟩ : PeriodRow)) ↔
        pr.course_id = (create st course).2.id ∧
          pr.period ∈ course.timing) ∧
    ((course.requirements.sort (· ≤ ·)).map
        (fun q => (⟨(create st course).2.id, q⟩ : RequirementRow))).Nodup ∧
    (∀ rr : RequirementRow,
      rr ∈ (course.requirements.sort (· ≤ ·)).map
          (fun q => (⟨(create st course).2.id, q⟩ : RequirementRow)) ↔
        rr.course_id = (create st course).2.id ∧
          rr.requirement_id ∈ course.requirements) := by
  rw [create_eq]
  refine ⟨rfl, rfl, rfl, ?_, ?_, ?_, ?_⟩
  · exact (Finset.sort_nodup _ _).map fun a b hab => by
      simpa using congrArg PeriodRow.period hab
  · intro pr
    constructor
    · intro hm
      obtain ⟨t, ht, rfl⟩ := List.mem_map.mp hm
      exact ⟨rfl, (Finset.mem_sort _).mp ht⟩
    · rintro ⟨hcid, hper⟩
      cases pr with
      | mk c p =>
        cases hcid
        exact List.mem_map.mpr ⟨p, (Finset.mem_sort _).mpr hper, rfl⟩
  · exact (Finset.sort_nodup _ _).map fun a b hab => by
      simpa using congrArg RequirementRow.requirement_id hab
  · intro rr
    constructor
    · intro hm
      obtain ⟨q, hq, rfl⟩ := List.mem_map.mp hm
      exact ⟨rfl, (Finset.mem_sort _).mp hq⟩
    · rintro ⟨hcid, hreq⟩
      cases rr with
      | mk c q =>
        cases hcid
        exact List.mem_map.mpr ⟨q, (Finset.mem_sort _).mpr hreq, rfl⟩

/-- C8: `find_all` returns one entry per `Courses` row, in ascending order
of id, each entry being `find_by_id` of that row's id (so each entry is
`some` course carrying exactly that id). -/
theorem C8_find_all_sorted (st : DBState) :
    find_all st =
      (List.insertionSort (· ≤ ·) (st.courses.map (·.id))).map
        (find_by_id st) ∧
    (List.insertionSort (· ≤ ·) (st.courses.map (·.id))).Perm
      (st.courses.map (·.id)) ∧
    List.Sorted (· ≤ ·)
      (List.insertionSort (· ≤ ·) (st.courses.map (·.id))) ∧
    (find_all st).length = st.courses.length ∧
    (find_all st).map (Option.map Course.id) =
      (List.insertionSort (· ≤ ·) (st.courses.map (·.id))).map some := by
  refine ⟨rfl, List.perm_insertionSort _ _, List.sorted_insertionSort _ _,
    ?_, ?_⟩
  · unfold find_all
    rw [List.length_map, List.length_insertionSort, List.length_map]
  · unfold find_all
    rw [List.map_map]
    refine List.map_congr_left fun i hi => ?_
    have hmem : i ∈ st.courses.map (·.id) :=
      (List.perm_insertionSort _ _).mem_iff.mp hi
    obtain ⟨r, hrm, hri⟩ := List.mem_map.mp hmem
    have hs : (find_by_id st i).isSome = true :=
      (find_by_id_isSome st i).mpr ⟨r, hrm, hri⟩
    simp only [Function.comp_apply]
    unfold find_by_id at hs ⊢
    cases hf : st.courses.find? (fun r => r.id = i) with
    | none =>
      rw [hf] at hs
      simp at hs
    | some row => rfl

end CourseRepo
